import Mathlib

/-!
Verification of `scripts/ig_scraper.py`: a shallow embedding of the
scraper's pure logic (HTTP-outcome classification, retry loops,
pagination, phase control, proxy masking) together with theorems about
the properties the specification states.

Network I/O, sleeping and randomness are abstracted: every API call's
outcome, every random wait draw (already rounded, as it appears in
emitted events) and the cooperative-cancellation flag at each checkpoint
are supplied by an environment record, and the embedding computes the
exact sequence of emitted events and the process exit behaviour.
-/

namespace IgScraper

/-- `MAX_RETRIES` from the source. -/
def MAX_RETRIES : Nat := 5

/-- `DELAY_ON_ERROR` from the source: the error-recovery wait range in
seconds; actual waits are uniform random draws from this interval. -/
def DELAY_ON_ERROR : ℚ × ℚ := (60, 120)

/-- `DELAY_FOLLOWER_PAGE` from the source: pagination pacing range. -/
def DELAY_FOLLOWER_PAGE : ℚ × ℚ := (5, 10)

/-- `DELAY_BIO_FETCH` from the source: enrichment pacing range. -/
def DELAY_BIO_FETCH : ℚ × ℚ := (20, 35)

/-- The wait computed at the user-lookup and bio-fetch rate-limit
handlers: `wait = random.uniform(*DELAY_ON_ERROR) * (attempt + 1)`,
where `u` is the uniform draw and `attempt` is 0-indexed. -/
def rateLimitWait (u : ℚ) (attempt : Nat) : ℚ := u * (attempt + 1)

/-- Mean of the uniform draw on `DELAY_ON_ERROR`. -/
def uniformMeanOnError : ℚ := (DELAY_ON_ERROR.1 + DELAY_ON_ERROR.2) / 2

/-- Expected value of the rate-limit wait at a given (0-indexed)
attempt: the uniform draw replaced by its mean. -/
def expectedRateLimitWait (attempt : Nat) : ℚ :=
  rateLimitWait uniformMeanOnError attempt

/-- Python's `pat in s` substring test, on the underlying characters. -/
def strContains (s pat : String) : Bool :=
  s.data.tails.any (fun t => pat.data.isPrefixOf t)

/-- `text[:200]`: truncation of a detail string to 200 characters. -/
def take200 (s : String) : String := String.mk (s.data.take 200)

/-- An HTTP response as the classifier in `ig_request` observes it:
the status code, the raw body text, and — when the body parses as a
JSON object — the `message` field extracted from it (`""` when the
field is absent). `jsonMsg = none` models a body that is not valid
JSON (`resp.json()` raises `ValueError`). For a 200 response, the
decoded payload itself is abstracted away: only its existence matters
to classification. -/
structure HttpResponse where
  status : Nat
  text : String
  jsonMsg : Option String
deriving DecidableEq

/-- The classified outcome of one API call: the exceptions raised by
`ig_request` (with their message strings), or success. -/
inductive ApiOutcome
  | success
  | sessionExpired (msg : String)
  | rateLimited (msg : String)
  | notFound (msg : String)
  | apiError (detail : String) (status : Nat)
deriving DecidableEq

/-- `true` iff the outcome is `ApiError`. -/
def ApiOutcome.isApiErr : ApiOutcome → Bool
  | .apiError _ _ => true
  | _ => false

/-- The pure classification performed by `ig_request` (source lines
81–105) once the response is in hand: status checks in source order,
the 400-body message markers, and the final JSON decode of a 200. -/
def ig_request_classify (path : String) (r : HttpResponse) : ApiOutcome :=
  if r.status = 401 then .sessionExpired "Session expired (401)"
  else if r.status = 400 then
    match r.jsonMsg with
    | some msg =>
      if strContains msg "challenge_required" || strContains msg "checkpoint_required" then
        .sessionExpired ("Challenge required: " ++ msg)
      else if strContains msg "login_required" then
        .sessionExpired ("Login required: " ++ msg)
      else .apiError ("400: " ++ msg) 400
    | none => .apiError ("400: " ++ take200 r.text) 400
  else if r.status = 429 then .rateLimited "Rate limited (429)"
  else if r.status = 404 then .notFound ("Not found (404): " ++ path)
  else if r.status ≠ 200 then
    .apiError ("HTTP " ++ toString r.status ++ ": " ++ take200 r.text) r.status
  else
    match r.jsonMsg with
    | none =>
      .apiError ("Non-JSON response (len=" ++ toString r.text.length ++ "): " ++ take200 r.text) r.status
    | some _ => .success

/-- The amended specification table for the classifier, written from
the spec's case table (with the marker set corrected to include
`checkpoint_required`): statuses are mutually exclusive so the rows
are listed in the spec's order, not the source's. -/
def amendedClassifySpec (path : String) (r : HttpResponse) : ApiOutcome :=
  if r.status = 401 then .sessionExpired "Session expired (401)"
  else if r.status = 429 then .rateLimited "Rate limited (429)"
  else if r.status = 404 then .notFound ("Not found (404): " ++ path)
  else if r.status = 400 then
    match r.jsonMsg with
    | some msg =>
      if strContains msg "challenge_required" || strContains msg "checkpoint_required" then
        .sessionExpired ("Challenge required: " ++ msg)
      else if strContains msg "login_required" then
        .sessionExpired ("Login required: " ++ msg)
      else .apiError ("400: " ++ msg) 400
    | none => .apiError ("400: " ++ take200 r.text) 400
  else if r.status ≠ 200 then
    .apiError ("HTTP " ++ toString r.status ++ ": " ++ take200 r.text) r.status
  else
    match r.jsonMsg with
    | none =>
      .apiError ("Non-JSON response (len=" ++ toString r.text.length ++ "): " ++ take200 r.text) r.status
    | some _ => .success

/-- Python's `str.split(sep)` on character lists: always returns a
non-empty list of (possibly empty) segments. -/
def pySplit (sep : Char) : List Char → List (List Char)
  | [] => [[]]
  | c :: cs =>
    match pySplit sep cs with
    | [] => [[]]
    | seg :: rest =>
      if c = sep then [] :: seg :: rest else (c :: seg) :: rest

/-- The proxy-masking expression from source line 148:
`proxy_url.split("@")[-1] if "@" in proxy_url else proxy_url`. -/
def maskProxyL (url : List Char) : List Char :=
  if url.contains '@' then (pySplit '@' url).getLastD [] else url

/-- A normalized follower record as built during pagination. -/
structure Follower where
  pk : String
  username : String
  full_name : String
deriving DecidableEq

/-- The enrichment payload built in the bio phase (the `bio_data`
dictionary), with the source's zero-defaulting already applied. -/
structure BioData where
  biography : String
  extUrl : String
  follower_count : Nat
  following_count : Nat
  is_private : Bool
  is_verified : Bool
  category : String
  media_count : Nat
deriving DecidableEq

/-- One emitted JSON line, by its `event` discriminator and fields. -/
inductive Event
  | info (message : String)
  | sessionValid (username : String)
  | phase (name : String)
  | userResolved (userId : String)
  | followersPage (newCount total : Nat) (cursor : Option String) (users : List Follower)
  | followersDone (total : Nat)
  | bioResult (index : Nat) (username : String) (bio : BioData)
  | bioSkip (index : Nat) (username : String) (reason : String)
  | rateLimitedEv (context : String) (wait : Nat) (attempt : Option Nat)
  | errorEv (message : String) (context : String) (wait : Nat)
  | fatal (message : String)
  | terminated
  | done
deriving DecidableEq

/-- How the process ends: `sys.exit(0)` after `done`, `sys.exit(0)`
after `terminated`, `sys.exit(1)` after `fatal`, or an uncaught Python
exception (traceback to stderr, no event). `envExhausted` is an
artifact of the finite fetch oracle, not a program behaviour. -/
inductive ExitKind
  | normal
  | terminatedExit
  | fatalExit
  | crash
  | envExhausted
deriving DecidableEq

/-- The numeric process exit status for each exit kind (an uncaught
Python exception exits with status 1). -/
def exitCode : ExitKind → Nat
  | .normal => 0
  | .terminatedExit => 0
  | .fatalExit => 1
  | .crash => 1
  | .envExhausted => 1

/-- The outcome the environment supplies for one attempt of a
non-pagination API call, abstracting `ig_request`: success carries the
string the caller extracts from the payload (the resolved user id, or
the validated username). -/
inductive CallRes
  | ok (payload : String)
  | rl
  | expired (msg : String)
  | notFound (msg : String)
  | err (msg : String)
deriving DecidableEq

/-- The outcome of one pagination-loop iteration's fetch: a page
(normalized users plus `next_max_id`), or a classified failure. -/
inductive PagStep
  | ok (users : List Follower) (next : Option String)
  | rl
  | expired (msg : String)
  | err (msg : String)
deriving DecidableEq

/-- The outcome the environment supplies for one bio-fetch attempt. -/
inductive BioCall
  | ok (b : BioData)
  | rl
  | expired (msg : String)
  | notFound
  | err (msg : String)
deriving DecidableEq

/-- Result of the user-resolution loop: a resolved id, or a halt of
the whole process. -/
inductive ResOut
  | resolved (uid : String)
  | halt (e : ExitKind)
deriving DecidableEq

/-- How the pagination loop ended: continuation token absent, follower
cap reached, process halt, or finite-oracle exhaustion (artifact). -/
inductive PagOut
  | finished
  | capStop
  | halt (e : ExitKind)
  | starved
deriving DecidableEq

/-- How the inner bio-attempt loop ended for one follower: a
`bio_result`, a `bio_skip`, a silent fall-through of the attempt loop
(no event for this follower), or a fatal session expiry. -/
inductive BioEnd
  | resulted
  | skipped
  | dropped
  | fatalStop
deriving DecidableEq

/-- The truthiness test on source line 249:
`if max_followers and len(followers) >= max_followers`. A cap of `0`
is falsy in Python, exactly like an absent cap. -/
def capHit : Option Nat → Nat → Bool
  | none, _ => false
  | some m, n => decide (m ≠ 0 ∧ m ≤ n)

/-- The user-resolution retry loop (source lines 176–209). `out`
gives each attempt's call outcome, `d` the rounded wait draw for the
attempt, `flag` the cancellation flag at each checkpoint counter `k`.
`fuel` counts the remaining iterations of `range(MAX_RETRIES)`;
running out of fuel without a resolution is the source's
`if not resolved` fatal path. Returns the emitted events, the result,
and the next checkpoint counter. -/
def resolveLoop (out : Nat → CallRes) (d : Nat → Nat) (flag : Nat → Bool)
    (tuser : String) (k attempt fuel : Nat) : List Event × ResOut × Nat :=
  match fuel with
  | 0 =>
    ([.fatal ("Could not resolve @" ++ tuser ++ " after 5 attempts")], .halt .fatalExit, k)
  | fuel' + 1 =>
    if flag k then ([.terminated], .halt .terminatedExit, k)
    else
      match out attempt with
      | .ok uid =>
        if uid = "" then
          if attempt = MAX_RETRIES - 1 then
            ([.fatal ("Could not resolve @" ++ tuser ++ " after 5 attempts: No user ID in response")],
              .halt .fatalExit, k + 1)
          else
            let r := resolveLoop out d flag tuser (k + 1) (attempt + 1) fuel'
            (.errorEv "No user ID in response" "user_lookup" (d attempt) :: r.1, r.2)
        else ([.userResolved uid], .resolved uid, k + 1)
      | .notFound _ =>
        ([.fatal ("User @" ++ tuser ++ " not found.")], .halt .fatalExit, k + 1)
      | .expired m =>
        ([.fatal ("Session expired during user lookup: " ++ m)], .halt .fatalExit, k + 1)
      | .rl =>
        let r := resolveLoop out d flag tuser (k + 1) (attempt + 1) fuel'
        (.rateLimitedEv "user_lookup" (d attempt) (some (attempt + 1)) :: r.1, r.2)
      | .err m =>
        if attempt = MAX_RETRIES - 1 then
          ([.fatal ("Could not resolve @" ++ tuser ++ " after 5 attempts: " ++ m)],
            .halt .fatalExit, k + 1)
        else
          let r := resolveLoop out d flag tuser (k + 1) (attempt + 1) fuel'
          (.errorEv m "user_lookup" (d attempt) :: r.1, r.2)

/-- The pagination `while True` loop (source lines 214–269), driven by
the finite list of per-iteration fetch outcomes. Checks the
cancellation flag at the top of each iteration; on a page, appends the
users, emits `followers_page`, then breaks on an absent continuation
token, else breaks with truncation when the cap condition fires;
`RateLimited` and generic errors emit an event and retry without
bound; `SessionExpired` is fatal. Returns events, the follower list,
how the loop ended, and the next checkpoint counter. -/
def pagLoop (maxF : Option Nat) (d : Nat → Nat) (flag : Nat → Bool) (k : Nat)
    (acc : List Follower) : List PagStep → List Event × List Follower × PagOut × Nat
  | [] => ([], acc, .starved, k)
  | s :: rest =>
    if flag k then ([.terminated], acc, .halt .terminatedExit, k)
    else
      match s with
      | .ok users next =>
        let acc2 := acc ++ users
        let ev := Event.followersPage users.length acc2.length next users
        match next with
        | none => ([ev], acc2, .finished, k + 1)
        | some _ =>
          if capHit maxF acc2.length then
            ([ev], acc2.take (maxF.getD 0), .capStop, k + 1)
          else
            let r := pagLoop maxF d flag (k + 1) acc2 rest
            (ev :: r.1, r.2)
      | .rl =>
        let r := pagLoop maxF d flag (k + 1) acc rest
        (.rateLimitedEv "followers" (d k) none :: r.1, r.2)
      | .expired m =>
        ([.fatal ("Session expired: " ++ m ++ ". Update your Instagram cookies and resume.")],
          acc, .halt .fatalExit, k + 1)
      | .err m =>
        let r := pagLoop maxF d flag (k + 1) acc rest
        (.errorEv m "followers" (d k) :: r.1, r.2)

/-- The inner bio-fetch attempt loop for one follower (source lines
286–349): success emits `bio_result` and breaks; `RateLimited` emits
`rate_limited` and consumes an attempt (on the last attempt the loop
then falls through silently — `dropped`); `SessionExpired` is fatal;
`NotFound` emits `bio_skip` and breaks; a generic error on the last
attempt emits `bio_skip`, otherwise `error` and retry. `attempt` is
the 0-indexed attempt number, `fuel` the remaining iterations. -/
def bioAttempts (d : Nat → Nat) (out : Nat → BioCall) (i : Nat) (uname : String) :
    Nat → Nat → List Event × BioEnd
  | _, 0 => ([], .dropped)
  | attempt, fuel + 1 =>
    match out attempt with
    | .ok b => ([.bioResult i uname b], .resulted)
    | .rl =>
      let r := bioAttempts d out i uname (attempt + 1) fuel
      (.rateLimitedEv ("bio @" ++ uname) (d attempt) (some (attempt + 1)) :: r.1, r.2)
    | .expired m =>
      ([.fatal ("Session expired: " ++ m ++ ". Update your Instagram cookies and resume.")],
        .fatalStop)
    | .notFound => ([.bioSkip i uname "User not found"], .skipped)
    | .err m =>
      if attempt = MAX_RETRIES - 1 then ([.bioSkip i uname m], .skipped)
      else
        let r := bioAttempts d out i uname (attempt + 1) fuel
        (.errorEv m ("bio @" ++ uname) (d attempt) :: r.1, r.2)

/-- The outer bio loop (source lines 279–352) over the indexed
followers from `next_bio_index` onward: a cancellation checkpoint per
follower, then the attempt loop; a fatal attempt outcome aborts the
run, anything else advances to the next follower. -/
def bioLoop (bout : Nat → Nat → BioCall) (d : Nat → Nat → Nat) (flag : Nat → Bool)
    (k : Nat) : List (Nat × Follower) → List Event × ExitKind × Nat
  | [] => ([], .normal, k)
  | (i, f) :: rest =>
    if flag k then ([.terminated], .terminatedExit, k)
    else
      let r := bioAttempts (d i) (bout i) i f.username 0 MAX_RETRIES
      match r.2 with
      | .fatalStop => (r.1, .fatalExit, k + 1)
      | _ =>
        let r2 := bioLoop bout d flag (k + 1) rest
        (r.1 ++ r2.1, r2.2)

/-- The configuration read from stdin (source lines 130–145).
`sessionId` and `targetUsername` are read with `config[...]`, so their
absence raises an uncaught `KeyError`; every other field has a
`config.get` default. The proxy URL is kept as a character list for
the masking analysis; the cap is non-negative in every configuration
this job receives. -/
structure Config where
  sessionId : Option String
  targetUsername : Option String
  maxFollowers : Option Nat
  phase : String
  cursor : Option String
  followers : List Follower
  startBioIndex : Nat
  targetUserId : Option String
  csrfToken : String
  dsUserId : String
  proxy : Option (List Char)

/-- The abstracted run environment: the cancellation flag sampled at
each checkpoint, the outcome of the session-validation call, the
per-attempt outcomes of user resolution, the per-iteration pagination
fetch outcomes, the per-follower per-attempt bio outcomes, and the
rounded random wait draws each site reports in its events. -/
structure Env where
  flag : Nat → Bool
  validate : CallRes
  lookup : Nat → CallRes
  pages : List PagStep
  bio : Nat → Nat → BioCall
  dLookup : Nat → Nat
  dPag : Nat → Nat
  dBio : Nat → Nat → Nat

/-- The startup proxy diagnostic (source lines 147–149): one `info`
event carrying only the masked proxy, or nothing when no proxy is
configured. -/
def proxyInfoEvents : Option (List Char) → List Event
  | some url => [.info ("Using proxy: " ++ String.mk (maskProxyL url))]
  | none => []

/-- The session-validation events (source lines 155–167): success
emits `session_valid`; expiry emits the fatal message; rate limiting
and any other failure emit an `info` and proceed. -/
def validationEvents : CallRes → List Event
  | .ok u => [.sessionValid u]
  | .expired m => [.fatal ("Session invalid: " ++ m ++ ". Update your Instagram cookies.")]
  | .rl => [.info "Session validation rate-limited, proceeding anyway"]
  | .notFound m => [.info ("Session validation failed (" ++ m ++ "), proceeding anyway")]
  | .err m => [.info ("Session validation failed (" ++ m ++ "), proceeding anyway")]

/-- Phase 1 (source lines 170–271): the phase marker, user resolution
when `target_user_id` is falsy (absent or empty), then pagination and
`followers_done`. Returns the events, the follower list, the next
checkpoint counter, and `some e` when the process halted. -/
def phase1 (maxF : Option Nat) (followers0 : List Follower) (targetUserId : Option String)
    (env : Env) (tuser : String) : List Event × List Follower × Nat × Option ExitKind :=
  let needRes := (targetUserId.getD "") = ""
  let res :=
    if needRes then resolveLoop env.lookup env.dLookup env.flag tuser 0 0 MAX_RETRIES
    else ([], .resolved (targetUserId.getD ""), 0)
  match res.2.1 with
  | .halt e => (Event.phase "collecting_followers" :: res.1, followers0, res.2.2, some e)
  | .resolved _ =>
    let pg := pagLoop maxF env.dPag env.flag res.2.2 followers0 env.pages
    match pg.2.2.1 with
    | .halt e =>
      (Event.phase "collecting_followers" :: (res.1 ++ pg.1), pg.2.1, pg.2.2.2, some e)
    | .starved =>
      (Event.phase "collecting_followers" :: (res.1 ++ pg.1), pg.2.1, pg.2.2.2, some .envExhausted)
    | _ =>
      (Event.phase "collecting_followers" :: (res.1 ++ pg.1) ++ [.followersDone pg.2.1.length],
        pg.2.1, pg.2.2.2, none)

/-- Phase 2 (source lines 274–352): the phase marker, then the outer
bio loop over the followers indexed from `start_bio_index`. -/
def phase2 (env : Env) (k : Nat) (followers : List Follower) (start : Nat) :
    List Event × ExitKind :=
  let r := bioLoop env.bio env.dBio env.flag k (followers.enum.drop start)
  (Event.phase "fetching_bios" :: r.1, r.2.1)

/-- The body of `main` once the two required config keys have been
read successfully: the already-computed startup diagnostics, then the
two phases guarded by the configured phase name, and the final
`done`. -/
def runBody (preEvs : List Event) (maxF : Option Nat) (phaseName : String)
    (followers0 : List Follower) (startBio : Nat) (targetUserId : Option String)
    (tuser : String) (env : Env) : List Event × ExitKind :=
  match env.validate with
  | .expired _ => (preEvs, .fatalExit)
  | _ =>
    if phaseName = "full" then
      let p1 := phase1 maxF followers0 targetUserId env tuser
      match p1.2.2.2 with
      | some e => (preEvs ++ p1.1, e)
      | none =>
        let p2 := phase2 env p1.2.2.1 p1.2.1 startBio
        match p2.2 with
        | .normal => (preEvs ++ p1.1 ++ p2.1 ++ [.done], .normal)
        | e => (preEvs ++ p1.1 ++ p2.1, e)
    else if phaseName = "bios" then
      let p2 := phase2 env 0 followers0 startBio
      match p2.2 with
      | .normal => (preEvs ++ p2.1 ++ [.done], .normal)
      | e => (preEvs ++ p2.1, e)
    else (preEvs ++ [.done], .normal)

/-- The whole run of `main` (source lines 123–354) after the stdin
read: required-key access in source order (an uncaught `KeyError` when
`session_id` or `target_username` is absent), the proxy diagnostic and
session-validation events, then the phase body. Returns the full event
trace and the exit kind. -/
def runMain (cfg : Config) (env : Env) : List Event × ExitKind :=
  match cfg.sessionId with
  | none => ([], .crash)
  | some _ =>
    match cfg.targetUsername with
    | none => ([], .crash)
    | some tuser =>
      runBody (proxyInfoEvents cfg.proxy ++ validationEvents env.validate)
        cfg.maxFollowers cfg.phase cfg.followers cfg.startBioIndex cfg.targetUserId tuser env

/-- `true` for the events that only the pagination-or-resolution part
of phase 1 can emit: `followers_page`, `followers_done`,
`user_resolved`. -/
def isPhase1Event : Event → Bool
  | .followersPage _ _ _ _ => true
  | .followersDone _ => true
  | .userResolved _ => true
  | _ => false

/-- The follower index carried by a bio accounting event
(`bio_result` or `bio_skip`), if any. -/
def bioIndex? : Event → Option Nat
  | .bioResult i _ _ => some i
  | .bioSkip i _ _ => some i
  | _ => none

/-- `true` iff the event is `fatal`. -/
def isFatalEvent : Event → Bool
  | .fatal _ => true
  | _ => false

/-- The trace ends with a `terminated` event that is also its only
one: nothing at all is emitted after it. -/
def TermLast (evs : List Event) : Prop :=
  ∃ pre, evs = pre ++ [Event.terminated] ∧ Event.terminated ∉ pre

/-- The `rate_limited` events a bounded retry loop emits for `j`
consecutive rate-limited attempts starting at attempt `a`, in context
`c`, with waits drawn by `d` (these events carry an `attempt`
field). -/
def rlEvents (c : String) (d : Nat → Nat) (a j : Nat) : List Event :=
  (List.range j).map (fun l => .rateLimitedEv c (d (a + l)) (some (a + l + 1)))

/-- The `rate_limited` events the pagination loop emits for `j`
consecutive rate-limited iterations starting at checkpoint `k` (these
events carry no `attempt` field). -/
def rlEventsPag (d : Nat → Nat) (k j : Nat) : List Event :=
  (List.range j).map (fun l => .rateLimitedEv "followers" (d (k + l)) none)

set_option maxRecDepth 100000 in
/-- C1 counterexample, exhibiting two failures of the claim at
concrete 400 responses. First, a 400 response whose JSON message is
exactly `checkpoint_required` contains neither of the claim's two
markers (`challenge_required`, `login_required`), so the claim
classifies it as `ApiError`; the code classifies it as
`SessionExpired`. Second, a 400 response whose JSON body parses to a
marker-free message of 1000 characters yields an `ApiError` whose
detail is the parsed message in full — 1005 characters, not truncated
to about 200. -/
theorem claim_C1_counterexample :
    strContains "checkpoint_required" "challenge_required" = false ∧
    strContains "checkpoint_required" "login_required" = false ∧
    ig_request_classify "users/web_profile_info/"
        ⟨400, "body", some "checkpoint_required"⟩ =
      ApiOutcome.sessionExpired "Challenge required: checkpoint_required" ∧
    (ig_request_classify "users/web_profile_info/"
        ⟨400, "body", some "checkpoint_required"⟩).isApiErr = false ∧
    ig_request_classify "users/web_profile_info/"
        ⟨400, "body", some (String.mk (List.replicate 1000 'a'))⟩ =
      ApiOutcome.apiError ("400: " ++ String.mk (List.replicate 1000 'a')) 400 ∧
    ("400: " ++ String.mk (List.replicate 1000 'a')).length = 1005 ∧
    200 < ("400: " ++ String.mk (List.replicate 1000 'a')).length := by
  refine ⟨by decide, by decide, by decide, by decide, by decide, by decide, by decide⟩

/-- C1 (amended): the classifier agrees with the spec's case table
once the 400-body markers are `challenge_required`,
`checkpoint_required` and `login_required`, with the detail strings as
the code builds them: for every path and response,
`ig_request_classify` equals the amended specification table. -/
theorem claim_C1_theorem :
    ∀ (path : String) (r : HttpResponse),
      ig_request_classify path r = amendedClassifySpec path r := by
  intro path r
  obtain ⟨s, t, m⟩ := r
  unfold ig_request_classify amendedClassifySpec
  by_cases h1 : s = 401 <;> by_cases h2 : s = 400 <;>
    by_cases h3 : s = 429 <;> by_cases h4 : s = 404 <;>
      simp_all

/-- C2: evaluation of the bio phase at the failing input. A follower
all of whose `MAX_RETRIES` enrichment attempts are rate-limited falls
out of the attempt loop with no `bio_result` and no `bio_skip` (only
`rate_limited` events), and the outer loop then advances: with two
followers where follower 0 is always rate-limited and follower 1
succeeds, the trace's bio accounting events cover index 1 only. -/
theorem claim_C2_theorem :
    (bioAttempts (fun _ => 0) (fun _ => .rl) 0 "alice" 0 MAX_RETRIES).2 = .dropped ∧
    (bioAttempts (fun _ => 0) (fun _ => .rl) 0 "alice" 0 MAX_RETRIES).1.filterMap bioIndex? = [] ∧
    (bioAttempts (fun _ => 0) (fun _ => .rl) 0 "alice" 0 MAX_RETRIES).1.length = 5 ∧
    (bioLoop (fun i _ => if i = 0 then .rl else .ok ⟨"", "", 0, 0, false, false, "", 0⟩)
        (fun _ _ => 0) (fun _ => false) 0
        [(0, ⟨"1", "a", ""⟩), (1, ⟨"2", "b", ""⟩)]).1.filterMap bioIndex? = [1] ∧
    (bioLoop (fun i _ => if i = 0 then .rl else .ok ⟨"", "", 0, 0, false, false, "", 0⟩)
        (fun _ _ => 0) (fun _ => false) 0
        [(0, ⟨"1", "a", ""⟩), (1, ⟨"2", "b", ""⟩)]).2.1 = .normal := by
  refine ⟨by decide, by decide, by decide, by decide, by decide⟩

/-- The rate-limit wait grows with the attempt number whenever the
underlying draw is non-negative. -/
theorem rateLimitWait_mono (u : ℚ) (a : Nat) (hu : 0 ≤ u) :
    rateLimitWait u a ≤ rateLimitWait u (a + 1) := by
  unfold rateLimitWait
  push_cast
  nlinarith [hu]

/-- C6: at the user-resolution and bio-fetch sites the rate-limit wait
is the uniform error-range draw `u` times the 1-indexed attempt number
(`attempt + 1` for the 0-indexed `attempt`), monotone in the attempt
for every draw in range; hence the expected wait is monotone
non-decreasing across attempts and is unbounded (uncapped). -/
theorem claim_C6_theorem :
    (∀ (u : ℚ) (a : Nat), DELAY_ON_ERROR.1 ≤ u → u ≤ DELAY_ON_ERROR.2 →
      rateLimitWait u a = u * (a + 1) ∧ rateLimitWait u a ≤ rateLimitWait u (a + 1)) ∧
    (∀ a : Nat, expectedRateLimitWait a ≤ expectedRateLimitWait (a + 1)) ∧
    (∀ C : ℚ, ∃ a : Nat, C < expectedRateLimitWait a) := by
  refine ⟨fun u a h1 h2 => ⟨rfl, ?_⟩, fun a => ?_, fun C => ?_⟩
  · apply rateLimitWait_mono
    have h60 : (0 : ℚ) ≤ DELAY_ON_ERROR.1 := by norm_num [DELAY_ON_ERROR]
    linarith
  · apply rateLimitWait_mono
    norm_num [uniformMeanOnError, DELAY_ON_ERROR]
  · obtain ⟨n, hn⟩ := exists_nat_gt C
    refine ⟨n, ?_⟩
    unfold expectedRateLimitWait rateLimitWait uniformMeanOnError DELAY_ON_ERROR
    have hnn : (0 : ℚ) ≤ (n : ℚ) := Nat.cast_nonneg n
    norm_num
    nlinarith [hn, hnn]

/-- C6 witness: the monotonicity and unboundedness facts at the
concrete draw `u = 70`, attempts 1 and 3, and bound 1000. -/
theorem claim_C6_witness :
    rateLimitWait 70 1 ≤ rateLimitWait 70 2 ∧
    expectedRateLimitWait 3 ≤ expectedRateLimitWait 4 ∧
    ∃ a : Nat, (1000 : ℚ) < expectedRateLimitWait a :=
  ⟨(claim_C6_theorem.1 70 1 (by norm_num [DELAY_ON_ERROR]) (by norm_num [DELAY_ON_ERROR])).2,
    claim_C6_theorem.2.1 3, claim_C6_theorem.2.2 1000⟩

/-- A cap of `0` never fires the cap condition. -/
theorem capHit_zero (n : Nat) : capHit (some 0) n = false := by
  simp [capHit]

/-- With no cap the pagination loop never ends via the cap check. -/
theorem pagLoop_none_no_capStop :
    ∀ (steps : List PagStep) (d : Nat → Nat) (flag : Nat → Bool) (k : Nat)
      (acc : List Follower),
      (pagLoop none d flag k acc steps).2.2.1 ≠ .capStop := by
  intro steps
  induction steps with
  | nil => intro d flag k acc; simp [pagLoop]
  | cons s rest ih =>
    intro d flag k acc
    by_cases hf : flag k = true
    · simp [pagLoop, hf]
    · cases s with
      | ok users next =>
        cases next with
        | none => simp [pagLoop, hf]
        | some c =>
          have hc : capHit none (acc ++ users).length = false := rfl
          simp only [pagLoop, hf, Bool.false_eq_true, if_false, hc]
          exact ih d flag (k + 1) (acc ++ users)
      | rl =>
        simp only [pagLoop, hf, Bool.false_eq_true, if_false]
        exact ih d flag (k + 1) acc
      | expired m => simp [pagLoop, hf]
      | err m =>
        simp only [pagLoop, hf, Bool.false_eq_true, if_false]
        exact ih d flag (k + 1) acc

/-- C10: a supplied cap of `0` is exactly an absent cap — the whole
pagination loop computes the same events, follower list, end state and
checkpoint counter, and the cap check never fires. -/
theorem claim_C10_theorem :
    (∀ (steps : List PagStep) (d : Nat → Nat) (flag : Nat → Bool) (k : Nat)
       (acc : List Follower),
       pagLoop (some 0) d flag k acc steps = pagLoop none d flag k acc steps) ∧
    (∀ (steps : List PagStep) (d : Nat → Nat) (flag : Nat → Bool) (k : Nat)
       (acc : List Follower),
       (pagLoop (some 0) d flag k acc steps).2.2.1 ≠ .capStop) := by
  have key : ∀ (steps : List PagStep) (d : Nat → Nat) (flag : Nat → Bool) (k : Nat)
      (acc : List Follower),
      pagLoop (some 0) d flag k acc steps = pagLoop none d flag k acc steps := by
    intro steps
    induction steps with
    | nil => intro d flag k acc; rfl
    | cons s rest ih =>
      intro d flag k acc
      by_cases hf : flag k = true
      · simp [pagLoop, hf]
      · cases s with
        | ok users next =>
          cases next with
          | none => simp [pagLoop, hf]
          | some c =>
            have hc0 : capHit (some 0) (acc ++ users).length = false := capHit_zero _
            have hcn : capHit none (acc ++ users).length = false := rfl
            simp only [pagLoop, hf, Bool.false_eq_true, if_false, hc0, hcn, ih]
        | rl =>
          simp only [pagLoop, hf, Bool.false_eq_true, if_false, ih]
        | expired m => simp [pagLoop, hf]
        | err m =>
          simp only [pagLoop, hf, Bool.false_eq_true, if_false, ih]
  refine ⟨key, fun steps d flag k acc => ?_⟩
  rw [key]
  exact pagLoop_none_no_capStop steps d flag k acc

/-- C3 counterexample: cap 70, two pages of 50 followers where the
second page has no continuation token. The accumulated list reaches
100 ≥ 70, but the loop breaks on the absent token before the cap check
runs, so the stored list keeps all 100 entries instead of 70. -/
theorem claim_C3_counterexample :
    (pagLoop (some 70) (fun _ => 0) (fun _ => false) 0 []
        [.ok (List.replicate 50 ⟨"1", "u", ""⟩) (some "A"),
         .ok (List.replicate 50 ⟨"1", "u", ""⟩) none]).2.1.length = 100 ∧
    (pagLoop (some 70) (fun _ => 0) (fun _ => false) 0 []
        [.ok (List.replicate 50 ⟨"1", "u", ""⟩) (some "A"),
         .ok (List.replicate 50 ⟨"1", "u", ""⟩) none]).2.2.1 = .finished ∧
    (pagLoop (some 70) (fun _ => 0) (fun _ => false) 0 []
        [.ok (List.replicate 50 ⟨"1", "u", ""⟩) (some "A"),
         .ok (List.replicate 50 ⟨"1", "u", ""⟩) none]).2.1.length ≠ 70 := by
  refine ⟨by decide, by decide, by decide⟩

/-- Whenever the pagination loop ends via the cap check with cap `m`,
the stored follower list has exactly `m` entries. -/
theorem pagLoop_capStop_length :
    ∀ (steps : List PagStep) (m : Nat) (d : Nat → Nat) (flag : Nat → Bool)
      (k : Nat) (acc : List Follower),
      (pagLoop (some m) d flag k acc steps).2.2.1 = .capStop →
      (pagLoop (some m) d flag k acc steps).2.1.length = m := by
  intro steps
  induction steps with
  | nil => intro m d flag k acc h; simp [pagLoop] at h
  | cons s rest ih =>
    intro m d flag k acc h
    by_cases hf : flag k = true
    · simp [pagLoop, hf] at h
    · cases s with
      | ok users next =>
        cases next with
        | none => simp [pagLoop, hf] at h
        | some c =>
          by_cases hc : capHit (some m) (acc ++ users).length = true
          · simp only [pagLoop, hf, Bool.false_eq_true, if_false, hc, if_true]
            have hm : m ≠ 0 ∧ m ≤ (acc ++ users).length := by
              simpa [capHit] using hc
            simp only [Option.getD_some, List.length_take, List.length_append] at *
            omega
          · simp only [pagLoop, hf, Bool.false_eq_true, if_false,
              Bool.not_eq_true] at h ⊢
            simp only [hc, if_false] at h ⊢
            exact ih m d flag (k + 1) (acc ++ users) h
      | rl =>
        simp only [pagLoop, hf, Bool.false_eq_true, if_false] at h ⊢
        exact ih m d flag (k + 1) acc h
      | expired msg => simp [pagLoop, hf] at h
      | err msg =>
        simp only [pagLoop, hf, Bool.false_eq_true, if_false] at h ⊢
        exact ih m d flag (k + 1) acc h

/-- C3 (amended): truncation to the cap happens exactly when the loop
stops via the cap check (the just-appended page still carries a
continuation token and the accumulated length has reached the cap
`m ≥ 1`): the stored list then has exactly `m` entries. If the final
page's token is absent the loop stops first, without truncating. In
particular with cap 70 and two 50-follower pages whose tokens are both
present, pagination stops after the second page via the cap with
exactly 70 stored entries and exactly two page events. -/
theorem claim_C3_theorem :
    (∀ (steps : List PagStep) (m : Nat) (d : Nat → Nat) (flag : Nat → Bool)
       (k : Nat) (acc : List Follower), 1 ≤ m →
       (pagLoop (some m) d flag k acc steps).2.2.1 = .capStop →
       (pagLoop (some m) d flag k acc steps).2.1.length = m) ∧
    (pagLoop (some 70) (fun _ => 0) (fun _ => false) 0 []
        [.ok (List.replicate 50 ⟨"1", "u", ""⟩) (some "A"),
         .ok (List.replicate 50 ⟨"1", "u", ""⟩) (some "B")]).2.1.length = 70 ∧
    (pagLoop (some 70) (fun _ => 0) (fun _ => false) 0 []
        [.ok (List.replicate 50 ⟨"1", "u", ""⟩) (some "A"),
         .ok (List.replicate 50 ⟨"1", "u", ""⟩) (some "B")]).2.2.1 = .capStop ∧
    (pagLoop (some 70) (fun _ => 0) (fun _ => false) 0 []
        [.ok (List.replicate 50 ⟨"1", "u", ""⟩) (some "A"),
         .ok (List.replicate 50 ⟨"1", "u", ""⟩) (some "B")]).1.length = 2 := by
  refine ⟨fun steps m d flag k acc _ h => pagLoop_capStop_length steps m d flag k acc h,
    by decide, by decide, by decide⟩

/-- C3 witness: the general truncation statement applied to the
concrete capped two-page run. -/
theorem claim_C3_witness :
    (pagLoop (some 70) (fun _ => 0) (fun _ => false) 0 []
        [.ok (List.replicate 50 ⟨"1", "u", ""⟩) (some "A"),
         .ok (List.replicate 50 ⟨"1", "u", ""⟩) (some "B")]).2.1.length = 70 :=
  claim_C3_theorem.1
    [.ok (List.replicate 50 ⟨"1", "u", ""⟩) (some "A"),
     .ok (List.replicate 50 ⟨"1", "u", ""⟩) (some "B")]
    70 (fun _ => 0) (fun _ => false) 0 [] (by decide) (by decide)

/-- C8: evaluation of the run at the failing inputs. A non-empty
configuration missing the session credential (or the target username)
makes the run die on the unguarded key access: the process exits
non-zero via an uncaught error, but the event trace is empty — in
particular no `fatal` event is ever emitted. -/
theorem claim_C8_theorem :
    runMain ⟨none, some "alice", none, "full", none, [], 0, none, "", "", none⟩
        ⟨fun _ => false, .ok "", fun _ => .rl, [], fun _ _ => .rl,
          fun _ => 0, fun _ => 0, fun _ _ => 0⟩ = ([], .crash) ∧
    runMain ⟨some "sid", none, none, "full", none, [], 0, none, "", "", none⟩
        ⟨fun _ => false, .ok "", fun _ => .rl, [], fun _ _ => .rl,
          fun _ => 0, fun _ => 0, fun _ _ => 0⟩ = ([], .crash) ∧
    exitCode .crash = 1 ∧
    (runMain ⟨none, some "alice", none, "full", none, [], 0, none, "", "", none⟩
        ⟨fun _ => false, .ok "", fun _ => .rl, [], fun _ _ => .rl,
          fun _ => 0, fun _ => 0, fun _ _ => 0⟩).1.filter isFatalEvent = [] := by
  refine ⟨rfl, rfl, rfl, rfl⟩

/-- `pySplit` always returns at least one segment. -/
theorem pySplit_ne_nil (sep : Char) (l : List Char) : pySplit sep l ≠ [] := by
  cases l with
  | nil => simp [pySplit]
  | cons c cs =>
    rcases h : pySplit sep cs with _ | ⟨seg, rest⟩
    · simp [pySplit, h]
    · by_cases hc : c = sep <;> simp [pySplit, h, hc]

/-- Unfolding equation for `pySplit` on a cons cell. -/
theorem pySplit_cons (sep c : Char) (cs : List Char) :
    pySplit sep (c :: cs) =
      match pySplit sep cs with
      | [] => [[]]
      | seg :: rest => if c = sep then [] :: seg :: rest else (c :: seg) :: rest := rfl

/-- If the separator occurs in the list, `pySplit` yields at least two
segments. -/
theorem pySplit_length_ge2 (sep : Char) :
    ∀ zs : List Char, sep ∈ zs → 2 ≤ (pySplit sep zs).length := by
  intro zs
  induction zs with
  | nil => intro h; cases h
  | cons c cs ih =>
    intro hmem
    rcases h : pySplit sep cs with _ | ⟨seg, rest⟩
    · exact absurd h (pySplit_ne_nil sep cs)
    · by_cases hc : c = sep
      · simp [pySplit, h, hc]
      · have hcs : sep ∈ cs := by
          rcases List.mem_cons.mp hmem with h1 | h2
          · exact absurd h1.symm hc
          · exact h2
        have h2 := ih hcs
        rw [h] at h2
        simp only [pySplit_cons, h, if_neg hc]
        simp only [List.length_cons] at h2 ⊢
        omega

/-- A list without the separator is one single segment. -/
theorem pySplit_no_sep (sep : Char) :
    ∀ ys : List Char, sep ∉ ys → pySplit sep ys = [ys] := by
  intro ys
  induction ys with
  | nil => intro _; rfl
  | cons c cs ih =>
    intro h
    have hc : ¬ c = sep := fun he => h (he ▸ List.mem_cons_self c cs)
    have hcs : sep ∉ cs := fun hm => h (List.mem_cons_of_mem c hm)
    simp [pySplit, ih hcs, hc]

/-- The last `getLastD` segment ignores its default on a non-empty
list. -/
theorem getLastD_of_ne_nil {α : Type} (l : List α) (d₁ d₂ : α) (h : l ≠ []) :
    l.getLastD d₁ = l.getLastD d₂ := by
  cases l with
  | nil => exact absurd rfl h
  | cons a t => rw [List.getLastD_cons, List.getLastD_cons]

/-- The last segment of a split is determined by the part after the
last separator occurrence in the appended suffix. -/
theorem pySplit_append_getLastD (sep : Char) :
    ∀ xs ys : List Char,
      (pySplit sep (xs ++ sep :: ys)).getLastD [] = (pySplit sep ys).getLastD [] := by
  intro xs ys
  induction xs with
  | nil =>
    rcases h : pySplit sep ys with _ | ⟨seg, rest⟩
    · exact absurd h (pySplit_ne_nil sep ys)
    · simp only [List.nil_append, pySplit_cons, h, eq_self_iff_true, if_true]
      rw [List.getLastD_cons]
  | cons c xs ih =>
    rcases h : pySplit sep (xs ++ sep :: ys) with _ | ⟨seg, rest⟩
    · exact absurd h (pySplit_ne_nil sep _)
    · have hrest : rest ≠ [] := by
        have hlen := pySplit_length_ge2 sep (xs ++ sep :: ys)
          (List.mem_append_right xs (List.mem_cons_self sep ys))
        rw [h] at hlen
        intro he
        rw [he] at hlen
        simp at hlen
      by_cases hc : c = sep
      · simp only [List.cons_append, pySplit_cons, h, hc, eq_self_iff_true, if_true]
        rw [List.getLastD_cons, ← h]
        exact ih
      · simp only [List.cons_append, pySplit_cons, h, if_neg hc]
        rw [List.getLastD_cons, getLastD_of_ne_nil rest (c :: seg) seg hrest,
          ← List.getLastD_cons ([] : List Char) seg rest, ← h]
        exact ih

/-- Masking a proxy URL of the shape `credential ++ "@" ++ host`, with
no `@` inside the host, yields exactly the host. -/
theorem maskProxyL_cred (cred host : List Char) (h : '@' ∉ host) :
    maskProxyL (cred ++ '@' :: host) = host := by
  unfold maskProxyL
  have hmem : '@' ∈ cred ++ '@' :: host :=
    List.mem_append_right cred (List.mem_cons_self _ _)
  have hcont : (cred ++ '@' :: host).contains '@' = true := by
    simp [hmem]
  rw [if_pos hcont, pySplit_append_getLastD, pySplit_no_sep '@' host h]
  rfl

/-- C9: two configurations that differ only in the credential portion
(the part before the last `@`) of the proxy URL produce the same full
run — in particular the same startup `info` diagnostic — and that
diagnostic carries exactly the host portion, never the credential. -/
theorem claim_C9_theorem :
    ∀ (cfg : Config) (env : Env) (c₁ c₂ host : List Char), '@' ∉ host →
      runMain { cfg with proxy := some (c₁ ++ '@' :: host) } env =
        runMain { cfg with proxy := some (c₂ ++ '@' :: host) } env ∧
      proxyInfoEvents (some (c₁ ++ '@' :: host)) =
        [Event.info ("Using proxy: " ++ String.mk host)] := by
  intro cfg env c₁ c₂ host h
  have h1 : maskProxyL (c₁ ++ '@' :: host) = host := maskProxyL_cred c₁ host h
  have h2 : maskProxyL (c₂ ++ '@' :: host) = host := maskProxyL_cred c₂ host h
  obtain ⟨sid, tun, mf, ph, cur, fol, sbi, tui, ct, du, px⟩ := cfg
  constructor
  · cases sid <;> cases tun <;> simp [runMain, proxyInfoEvents, h1, h2]
  · simp [proxyInfoEvents, h1]

/-- C9 witness: the masking noninterference at a concrete pair of
credentialed proxy URLs sharing the host `proxy.example:8080`. -/
theorem claim_C9_witness :
    runMain ⟨some "sid", some "t", none, "x", none, [], 0, none, "", "",
        some ("user:pass".data ++ '@' :: "proxy.example:8080".data)⟩
      ⟨fun _ => false, .ok "", fun _ => .rl, [], fun _ _ => .rl,
        fun _ => 0, fun _ => 0, fun _ _ => 0⟩ =
    runMain ⟨some "sid", some "t", none, "x", none, [], 0, none, "", "",
        some ("other:cred".data ++ '@' :: "proxy.example:8080".data)⟩
      ⟨fun _ => false, .ok "", fun _ => .rl, [], fun _ _ => .rl,
        fun _ => 0, fun _ => 0, fun _ _ => 0⟩ ∧
    proxyInfoEvents (some ("user:pass".data ++ '@' :: "proxy.example:8080".data)) =
      [Event.info ("Using proxy: " ++ String.mk "proxy.example:8080".data)] :=
  claim_C9_theorem
    ⟨some "sid", some "t", none, "x", none, [], 0, none, "", "",
      some ("user:pass".data ++ '@' :: "proxy.example:8080".data)⟩
    ⟨fun _ => false, .ok "", fun _ => .rl, [], fun _ _ => .rl,
      fun _ => 0, fun _ => 0, fun _ _ => 0⟩
    "user:pass".data "other:cred".data "proxy.example:8080".data (by decide)

/-- The proxy diagnostic is never a pagination or resolution event. -/
theorem proxyInfoEvents_filter (p : Option (List Char)) :
    (proxyInfoEvents p).filter isPhase1Event = [] := by
  cases p <;> rfl

/-- The validation events are never pagination or resolution events. -/
theorem validationEvents_filter (v : CallRes) :
    (validationEvents v).filter isPhase1Event = [] := by
  cases v <;> rfl

/-- The proxy diagnostic carries no bio accounting index. -/
theorem proxyInfoEvents_filterMap (p : Option (List Char)) :
    (proxyInfoEvents p).filterMap bioIndex? = [] := by
  cases p <;> rfl

/-- The validation events carry no bio accounting index. -/
theorem validationEvents_filterMap (v : CallRes) :
    (validationEvents v).filterMap bioIndex? = [] := by
  cases v <;> rfl

/-- The bio attempt loop never emits a pagination or resolution
event. -/
theorem bioAttempts_filter_phase1 :
    ∀ (fuel attempt : Nat) (d : Nat → Nat) (out : Nat → BioCall) (i : Nat) (u : String),
      (bioAttempts d out i u attempt fuel).1.filter isPhase1Event = [] := by
  intro fuel
  induction fuel with
  | zero => intro attempt d out i u; rfl
  | succ fuel ih =>
    intro attempt d out i u
    rcases hout : out attempt with b | _ | m | _ | m
    · simp [bioAttempts, hout, isPhase1Event]
    · simp [bioAttempts, hout, isPhase1Event, ih]
    · simp [bioAttempts, hout, isPhase1Event]
    · simp [bioAttempts, hout, isPhase1Event]
    · by_cases hl : attempt = MAX_RETRIES - 1
      · simp [bioAttempts, hout, if_pos hl, isPhase1Event]
      · simp [bioAttempts, hout, if_neg hl, isPhase1Event, ih]

/-- The outer bio loop never emits a pagination or resolution
event. -/
theorem bioLoop_filter_phase1 :
    ∀ (pairs : List (Nat × Follower)) (bout : Nat → Nat → BioCall)
      (d : Nat → Nat → Nat) (flag : Nat → Bool) (k : Nat),
      (bioLoop bout d flag k pairs).1.filter isPhase1Event = [] := by
  intro pairs
  induction pairs with
  | nil => intro bout d flag k; rfl
  | cons p rest ih =>
    intro bout d flag k
    obtain ⟨i, f⟩ := p
    by_cases hf : flag k = true
    · simp [bioLoop, hf, isPhase1Event]
    · rcases he : (bioAttempts (d i) (bout i) i f.username 0 MAX_RETRIES).2 with _ | _ | _ | _ <;>
        simp [bioLoop, hf, he, List.filter_append, bioAttempts_filter_phase1, ih]

/-- A successful first attempt yields exactly one `bio_result`. -/
theorem bioAttempts_ok (d : Nat → Nat) (out : Nat → BioCall) (i : Nat) (u : String)
    (attempt fuel : Nat) (b : BioData) (h : out attempt = .ok b) :
    bioAttempts d out i u attempt (fuel + 1) = ([.bioResult i u b], .resulted) := by
  simp [bioAttempts, h]

/-- With every attempt outcome a success and the cancellation flag
never set, the bio loop emits exactly one `bio_result` per processed
pair and completes normally. -/
theorem bioLoop_all_ok (bout : Nat → Nat → BioCall) (B : Nat → BioData)
    (hbout : ∀ i a, bout i a = .ok (B i)) (d : Nat → Nat → Nat) (flag : Nat → Bool)
    (hflag : ∀ j, flag j = false) :
    ∀ (pairs : List (Nat × Follower)) (k : Nat),
      (bioLoop bout d flag k pairs).1 =
        pairs.map (fun p => Event.bioResult p.1 p.2.username (B p.1)) ∧
      (bioLoop bout d flag k pairs).2.1 = .normal := by
  intro pairs
  induction pairs with
  | nil => intro k; exact ⟨rfl, rfl⟩
  | cons p rest ih =>
    intro k
    obtain ⟨i, f⟩ := p
    have hatt : bioAttempts (d i) (bout i) i f.username 0 MAX_RETRIES =
        ([.bioResult i f.username (B i)], .resulted) :=
      bioAttempts_ok (d i) (bout i) i f.username 0 4 (B i) (hbout i 0)
    simp [bioLoop, hflag k, hatt, (ih (k + 1)).1, (ih (k + 1)).2]

/-- C4: with `phase = "bios"` the run emits no `followers_page`,
`followers_done` or `user_resolved` event whatever the environment
does (in particular whatever pagination cursor is configured), and —
when no cancellation occurs and every enrichment succeeds — the bio
accounting events cover exactly the indices from the resume index to
the end of the pre-populated follower list. -/
theorem claim_C4_theorem :
    (∀ (cfg : Config) (env : Env), cfg.phase = "bios" →
      (runMain cfg env).1.filter isPhase1Event = []) ∧
    (∀ (cfg : Config) (env : Env) (B : Nat → BioData), cfg.phase = "bios" →
      cfg.sessionId.isSome = true → cfg.targetUsername.isSome = true →
      (∀ m, env.validate ≠ .expired m) →
      (∀ j, env.flag j = false) → (∀ i a, env.bio i a = .ok (B i)) →
      (runMain cfg env).1.filterMap bioIndex? =
        (List.range cfg.followers.length).drop cfg.startBioIndex) := by
  constructor
  · intro cfg env hphase
    rcases hs : cfg.sessionId with _ | sid
    · simp [runMain, hs]
    rcases ht : cfg.targetUsername with _ | tuser
    · simp [runMain, hs, ht]
    rcases hv : env.validate with u | _ | m | m | m <;>
      rcases hb : (bioLoop env.bio env.dBio env.flag 0
          (cfg.followers.enum.drop cfg.startBioIndex)).2.1 with _ | _ | _ | _ | _ <;>
        simp [runMain, hs, ht, runBody, hv, hphase, phase2, hb, List.filter_append,
          proxyInfoEvents_filter, validationEvents_filter, bioLoop_filter_phase1,
          isPhase1Event]
  · intro cfg env B hphase hsid htun hvne hflag hbio
    obtain ⟨sid, hs⟩ := Option.isSome_iff_exists.mp hsid
    obtain ⟨tuser, ht⟩ := Option.isSome_iff_exists.mp htun
    have hloop := bioLoop_all_ok env.bio B hbio env.dBio env.flag hflag
      (cfg.followers.enum.drop cfg.startBioIndex) 0
    have hmap : List.filterMap bioIndex? (List.drop cfg.startBioIndex
        (List.map (fun p : Nat × Follower => Event.bioResult p.1 p.2.username (B p.1))
          cfg.followers.enum)) =
        List.drop cfg.startBioIndex (List.range cfg.followers.length) := by
      rw [← List.map_drop, List.filterMap_map,
        show (bioIndex? ∘ fun p : Nat × Follower =>
            Event.bioResult p.1 p.2.username (B p.1)) =
          some ∘ (fun p : Nat × Follower => p.1) from rfl,
        List.filterMap_eq_map,
        show (fun p : Nat × Follower => p.1) = (Prod.fst : Nat × Follower → Nat) from rfl,
        List.map_drop, List.enum_map_fst]
    rcases hv : env.validate with u | _ | m | m | m
    · simp [runMain, hs, ht, runBody, hv, hphase, phase2, hloop.1, hloop.2,
        List.filterMap_append, proxyInfoEvents_filterMap, validationEvents_filterMap,
        bioIndex?, hmap]
    · simp [runMain, hs, ht, runBody, hv, hphase, phase2, hloop.1, hloop.2,
        List.filterMap_append, proxyInfoEvents_filterMap, validationEvents_filterMap,
        bioIndex?, hmap]
    · exact absurd hv (hvne m)
    · simp [runMain, hs, ht, runBody, hv, hphase, phase2, hloop.1, hloop.2,
        List.filterMap_append, proxyInfoEvents_filterMap, validationEvents_filterMap,
        bioIndex?, hmap]
    · simp [runMain, hs, ht, runBody, hv, hphase, phase2, hloop.1, hloop.2,
        List.filterMap_append, proxyInfoEvents_filterMap, validationEvents_filterMap,
        bioIndex?, hmap]

/-- C4 witness: the resume run of the spec's example — ten followers,
resume index 6 — emits no pagination or resolution event and accounts
exactly for indices 6..9. -/
theorem claim_C4_witness :
    (runMain ⟨some "sid", some "tgt", none, "bios", some "CUR",
          List.replicate 10 ⟨"1", "u", ""⟩, 6, none, "", "", none⟩
        ⟨fun _ => false, .ok "me", fun _ => .rl, [],
          fun _ _ => .ok ⟨"", "", 0, 0, false, false, "", 0⟩,
          fun _ => 0, fun _ => 0, fun _ _ => 0⟩).1.filter isPhase1Event = [] ∧
    (runMain ⟨some "sid", some "tgt", none, "bios", some "CUR",
          List.replicate 10 ⟨"1", "u", ""⟩, 6, none, "", "", none⟩
        ⟨fun _ => false, .ok "me", fun _ => .rl, [],
          fun _ _ => .ok ⟨"", "", 0, 0, false, false, "", 0⟩,
          fun _ => 0, fun _ => 0, fun _ _ => 0⟩).1.filterMap bioIndex? =
      (List.range (List.replicate 10 (⟨"1", "u", ""⟩ : Follower)).length).drop 6 :=
  ⟨claim_C4_theorem.1
      ⟨some "sid", some "tgt", none, "bios", some "CUR",
        List.replicate 10 ⟨"1", "u", ""⟩, 6, none, "", "", none⟩
      ⟨fun _ => false, .ok "me", fun _ => .rl, [],
        fun _ _ => .ok ⟨"", "", 0, 0, false, false, "", 0⟩,
        fun _ => 0, fun _ => 0, fun _ _ => 0⟩ rfl,
    claim_C4_theorem.2
      ⟨some "sid", some "tgt", none, "bios", some "CUR",
        List.replicate 10 ⟨"1", "u", ""⟩, 6, none, "", "", none⟩
      ⟨fun _ => false, .ok "me", fun _ => .rl, [],
        fun _ _ => .ok ⟨"", "", 0, 0, false, false, "", 0⟩,
        fun _ => 0, fun _ => 0, fun _ _ => 0⟩
      (fun _ => ⟨"", "", 0, 0, false, false, "", 0⟩) rfl rfl rfl
      (fun _ h => CallRes.noConfusion h) (fun _ => rfl) (fun _ _ => rfl)⟩

/-- The singleton `terminated` trace ends in `terminated`. -/
theorem TermLast_singleton : TermLast [Event.terminated] :=
  ⟨[], rfl, by simp⟩

/-- Prefixing a non-`terminated` event preserves `TermLast`. -/
theorem TermLast_cons (e : Event) (he : e ≠ Event.terminated) {l : List Event}
    (h : TermLast l) : TermLast (e :: l) := by
  obtain ⟨pre, hpre, hmem⟩ := h
  refine ⟨e :: pre, by rw [hpre, List.cons_append], ?_⟩
  simp only [List.mem_cons, not_or]
  exact ⟨fun hh => he hh.symm, hmem⟩

/-- Prefixing a `terminated`-free trace preserves `TermLast`. -/
theorem TermLast_append {l₀ l : List Event} (h₀ : Event.terminated ∉ l₀)
    (h : TermLast l) : TermLast (l₀ ++ l) := by
  obtain ⟨pre, hpre, hmem⟩ := h
  refine ⟨l₀ ++ pre, by rw [hpre, List.append_assoc], ?_⟩
  simp only [List.mem_append, not_or]
  exact ⟨h₀, hmem⟩

/-- The bio attempt loop never emits `terminated` (it has no
cancellation checkpoint). -/
theorem bioAttempts_no_term :
    ∀ (fuel attempt : Nat) (d : Nat → Nat) (out : Nat → BioCall) (i : Nat) (u : String),
      Event.terminated ∉ (bioAttempts d out i u attempt fuel).1 := by
  intro fuel
  induction fuel with
  | zero => intro attempt d out i u; simp [bioAttempts]
  | succ fuel ih =>
    intro attempt d out i u
    rcases hout : out attempt with b | _ | m | _ | m
    · simp [bioAttempts, hout]
    · simp only [bioAttempts, hout, List.mem_cons, not_or]
      exact ⟨by simp, ih (attempt + 1) d out i u⟩
    · simp [bioAttempts, hout]
    · simp [bioAttempts, hout]
    · by_cases hl : attempt = MAX_RETRIES - 1
      · simp [bioAttempts, hout, if_pos hl]
      · simp only [bioAttempts, hout, if_neg hl, List.mem_cons, not_or]
        exact ⟨by simp, ih (attempt + 1) d out i u⟩

/-- The startup diagnostics never contain `terminated`. -/
theorem preEvents_no_term (p : Option (List Char)) (v : CallRes) :
    Event.terminated ∉ proxyInfoEvents p ++ validationEvents v := by
  cases p <;> cases v <;> simp [proxyInfoEvents, validationEvents]

/-- The resolution loop emits `terminated` exactly when it halts with
the cooperative exit, and then `terminated` closes the trace. -/
theorem resolveLoop_term :
    ∀ (fuel attempt : Nat) (out : Nat → CallRes) (d : Nat → Nat) (flag : Nat → Bool)
      (t : String) (k : Nat),
      ((resolveLoop out d flag t k attempt fuel).2.1 = .halt .terminatedExit →
        TermLast (resolveLoop out d flag t k attempt fuel).1) ∧
      ((resolveLoop out d flag t k attempt fuel).2.1 ≠ .halt .terminatedExit →
        Event.terminated ∉ (resolveLoop out d flag t k attempt fuel).1) := by
  intro fuel
  induction fuel with
  | zero =>
    intro attempt out d flag t k
    refine ⟨fun h => ?_, fun _ => ?_⟩
    · simp [resolveLoop] at h
    · simp [resolveLoop]
  | succ fuel ih =>
    intro attempt out d flag t k
    by_cases hf : flag k = true
    · have hr : resolveLoop out d flag t k attempt (fuel + 1) =
          ([.terminated], .halt .terminatedExit, k) := by
        simp [resolveLoop, hf]
      rw [hr]
      exact ⟨fun _ => TermLast_singleton, fun hne => absurd rfl hne⟩
    · rcases hout : out attempt with uid | _ | m | m | m
      · by_cases hu : uid = ""
        · by_cases hl : attempt = MAX_RETRIES - 1
          · have hr : resolveLoop out d flag t k attempt (fuel + 1) =
                ([.fatal ("Could not resolve @" ++ t ++
                  " after 5 attempts: No user ID in response")], .halt .fatalExit, k + 1) := by
              simp [resolveLoop, hf, hout, hu, if_pos hl]
            rw [hr]
            exact ⟨fun h => by simp at h, fun _ => by simp⟩
          · have hr : resolveLoop out d flag t k attempt (fuel + 1) =
                (.errorEv "No user ID in response" "user_lookup" (d attempt) ::
                    (resolveLoop out d flag t (k + 1) (attempt + 1) fuel).1,
                  (resolveLoop out d flag t (k + 1) (attempt + 1) fuel).2) := by
              simp [resolveLoop, hf, hout, hu, if_neg hl]
            rw [hr]
            obtain ⟨ih1, ih2⟩ := ih (attempt + 1) out d flag t (k + 1)
            refine ⟨fun h => TermLast_cons _ (by simp) (ih1 h), fun h => ?_⟩
            simp only [List.mem_cons, not_or]
            exact ⟨by simp, ih2 h⟩
        · have hr : resolveLoop out d flag t k attempt (fuel + 1) =
              ([.userResolved uid], .resolved uid, k + 1) := by
            simp [resolveLoop, hf, hout, hu]
          rw [hr]
          exact ⟨fun h => by simp at h, fun _ => by simp⟩
      · have hr : resolveLoop out d flag t k attempt (fuel + 1) =
            (.rateLimitedEv "user_lookup" (d attempt) (some (attempt + 1)) ::
                (resolveLoop out d flag t (k + 1) (attempt + 1) fuel).1,
              (resolveLoop out d flag t (k + 1) (attempt + 1) fuel).2) := by
          simp [resolveLoop, hf, hout]
        rw [hr]
        obtain ⟨ih1, ih2⟩ := ih (attempt + 1) out d flag t (k + 1)
        refine ⟨fun h => TermLast_cons _ (by simp) (ih1 h), fun h => ?_⟩
        simp only [List.mem_cons, not_or]
        exact ⟨by simp, ih2 h⟩
      · have hr : resolveLoop out d flag t k attempt (fuel + 1) =
            ([.fatal ("Session expired during user lookup: " ++ m)], .halt .fatalExit, k + 1) := by
          simp [resolveLoop, hf, hout]
        rw [hr]
        exact ⟨fun h => by simp at h, fun _ => by simp⟩
      · have hr : resolveLoop out d flag t k attempt (fuel + 1) =
            ([.fatal ("User @" ++ t ++ " not found.")], .halt .fatalExit, k + 1) := by
          simp [resolveLoop, hf, hout]
        rw [hr]
        exact ⟨fun h => by simp at h, fun _ => by simp⟩
      · by_cases hl : attempt = MAX_RETRIES - 1
        · have hr : resolveLoop out d flag t k attempt (fuel + 1) =
              ([.fatal ("Could not resolve @" ++ t ++ " after 5 attempts: " ++ m)],
                .halt .fatalExit, k + 1) := by
            simp [resolveLoop, hf, hout, if_pos hl]
          rw [hr]
          exact ⟨fun h => by simp at h, fun _ => by simp⟩
        · have hr : resolveLoop out d flag t k attempt (fuel + 1) =
              (.errorEv m "user_lookup" (d attempt) ::
                  (resolveLoop out d flag t (k + 1) (attempt + 1) fuel).1,
                (resolveLoop out d flag t (k + 1) (attempt + 1) fuel).2) := by
            simp [resolveLoop, hf, hout, if_neg hl]
          rw [hr]
          obtain ⟨ih1, ih2⟩ := ih (attempt + 1) out d flag t (k + 1)
          refine ⟨fun h => TermLast_cons _ (by simp) (ih1 h), fun h => ?_⟩
          simp only [List.mem_cons, not_or]
          exact ⟨by simp, ih2 h⟩

/-- The pagination loop emits `terminated` exactly when it halts with
the cooperative exit, and then `terminated` closes the trace. -/
theorem pagLoop_term :
    ∀ (steps : List PagStep) (maxF : Option Nat) (d : Nat → Nat) (flag : Nat → Bool)
      (k : Nat) (acc : List Follower),
      ((pagLoop maxF d flag k acc steps).2.2.1 = .halt .terminatedExit →
        TermLast (pagLoop maxF d flag k acc steps).1) ∧
      ((pagLoop maxF d flag k acc steps).2.2.1 ≠ .halt .terminatedExit →
        Event.terminated ∉ (pagLoop maxF d flag k acc steps).1) := by
  intro steps
  induction steps with
  | nil =>
    intro maxF d flag k acc
    refine ⟨fun h => ?_, fun _ => ?_⟩
    · simp [pagLoop] at h
    · simp [pagLoop]
  | cons s rest ih =>
    intro maxF d flag k acc
    by_cases hf : flag k = true
    · have hr : pagLoop maxF d flag k acc (s :: rest) =
          ([.terminated], acc, .halt .terminatedExit, k) := by
        simp [pagLoop, hf]
      rw [hr]
      exact ⟨fun _ => TermLast_singleton, fun hne => absurd rfl hne⟩
    · cases s with
      | ok users next =>
        cases next with
        | none =>
          have hr : pagLoop maxF d flag k acc (.ok users none :: rest) =
              ([.followersPage users.length (acc ++ users).length none users],
                acc ++ users, .finished, k + 1) := by
            simp [pagLoop, hf]
          rw [hr]
          exact ⟨fun h => by simp at h, fun _ => by simp⟩
        | some c =>
          by_cases hc : capHit maxF (acc ++ users).length = true
          · have hc' : capHit maxF (acc.length + users.length) = true := by
              simpa using hc
            have hr : pagLoop maxF d flag k acc (.ok users (some c) :: rest) =
                ([.followersPage users.length (acc ++ users).length (some c) users],
                  (acc ++ users).take (maxF.getD 0), .capStop, k + 1) := by
              simp [pagLoop, hf, hc, hc']
            rw [hr]
            exact ⟨fun h => by simp at h, fun _ => by simp⟩
          · have hc' : capHit maxF (acc.length + users.length) = false := by
              simpa using hc
            have hr : pagLoop maxF d flag k acc (.ok users (some c) :: rest) =
                (.followersPage users.length (acc ++ users).length (some c) users ::
                    (pagLoop maxF d flag (k + 1) (acc ++ users) rest).1,
                  (pagLoop maxF d flag (k + 1) (acc ++ users) rest).2) := by
              simp [pagLoop, hf, hc, hc']
            rw [hr]
            obtain ⟨ih1, ih2⟩ := ih maxF d flag (k + 1) (acc ++ users)
            refine ⟨fun h => TermLast_cons _ (by simp) (ih1 h), fun h => ?_⟩
            simp only [List.mem_cons, not_or]
            exact ⟨by simp, ih2 h⟩
      | rl =>
        have hr : pagLoop maxF d flag k acc (.rl :: rest) =
            (.rateLimitedEv "followers" (d k) none ::
                (pagLoop maxF d flag (k + 1) acc rest).1,
              (pagLoop maxF d flag (k + 1) acc rest).2) := by
          simp [pagLoop, hf]
        rw [hr]
        obtain ⟨ih1, ih2⟩ := ih maxF d flag (k + 1) acc
        refine ⟨fun h => TermLast_cons _ (by simp) (ih1 h), fun h => ?_⟩
        simp only [List.mem_cons, not_or]
        exact ⟨by simp, ih2 h⟩
      | expired m =>
        have hr : pagLoop maxF d flag k acc (.expired m :: rest) =
            ([.fatal ("Session expired: " ++ m ++ ". Update your Instagram cookies and resume.")],
              acc, .halt .fatalExit, k + 1) := by
          simp [pagLoop, hf]
        rw [hr]
        exact ⟨fun h => by simp at h, fun _ => by simp⟩
      | err m =>
        have hr : pagLoop maxF d flag k acc (.err m :: rest) =
            (.errorEv m "followers" (d k) ::
                (pagLoop maxF d flag (k + 1) acc rest).1,
              (pagLoop maxF d flag (k + 1) acc rest).2) := by
          simp [pagLoop, hf]
        rw [hr]
        obtain ⟨ih1, ih2⟩ := ih maxF d flag (k + 1) acc
        refine ⟨fun h => TermLast_cons _ (by simp) (ih1 h), fun h => ?_⟩
        simp only [List.mem_cons, not_or]
        exact ⟨by simp, ih2 h⟩

/-- The outer bio loop emits `terminated` exactly when it ends with
the cooperative exit, and then `terminated` closes the trace. -/
theorem bioLoop_term :
    ∀ (pairs : List (Nat × Follower)) (bout : Nat → Nat → BioCall)
      (d : Nat → Nat → Nat) (flag : Nat → Bool) (k : Nat),
      ((bioLoop bout d flag k pairs).2.1 = .terminatedExit →
        TermLast (bioLoop bout d flag k pairs).1) ∧
      ((bioLoop bout d flag k pairs).2.1 ≠ .terminatedExit →
        Event.terminated ∉ (bioLoop bout d flag k pairs).1) := by
  intro pairs
  induction pairs with
  | nil =>
    intro bout d flag k
    refine ⟨fun h => ?_, fun _ => ?_⟩
    · simp [bioLoop] at h
    · simp [bioLoop]
  | cons p rest ih =>
    intro bout d flag k
    obtain ⟨i, f⟩ := p
    by_cases hf : flag k = true
    · have hr : bioLoop bout d flag k ((i, f) :: rest) =
          ([.terminated], .terminatedExit, k) := by
        simp [bioLoop, hf]
      rw [hr]
      exact ⟨fun _ => TermLast_singleton, fun hne => absurd rfl hne⟩
    · rcases he : (bioAttempts (d i) (bout i) i f.username 0 MAX_RETRIES).2
        with _ | _ | _ | _
      · have hr : bioLoop bout d flag k ((i, f) :: rest) =
            ((bioAttempts (d i) (bout i) i f.username 0 MAX_RETRIES).1 ++
                (bioLoop bout d flag (k + 1) rest).1,
              (bioLoop bout d flag (k + 1) rest).2) := by
          simp [bioLoop, hf, he]
        rw [hr]
        obtain ⟨ih1, ih2⟩ := ih bout d flag (k + 1)
        refine ⟨fun h => TermLast_append (bioAttempts_no_term _ _ _ _ _ _) (ih1 h),
          fun h => ?_⟩
        simp only [List.mem_append, not_or]
        exact ⟨bioAttempts_no_term _ _ _ _ _ _, ih2 h⟩
      · have hr : bioLoop bout d flag k ((i, f) :: rest) =
            ((bioAttempts (d i) (bout i) i f.username 0 MAX_RETRIES).1 ++
                (bioLoop bout d flag (k + 1) rest).1,
              (bioLoop bout d flag (k + 1) rest).2) := by
          simp [bioLoop, hf, he]
        rw [hr]
        obtain ⟨ih1, ih2⟩ := ih bout d flag (k + 1)
        refine ⟨fun h => TermLast_append (bioAttempts_no_term _ _ _ _ _ _) (ih1 h),
          fun h => ?_⟩
        simp only [List.mem_append, not_or]
        exact ⟨bioAttempts_no_term _ _ _ _ _ _, ih2 h⟩
      · have hr : bioLoop bout d flag k ((i, f) :: rest) =
            ((bioAttempts (d i) (bout i) i f.username 0 MAX_RETRIES).1 ++
                (bioLoop bout d flag (k + 1) rest).1,
              (bioLoop bout d flag (k + 1) rest).2) := by
          simp [bioLoop, hf, he]
        rw [hr]
        obtain ⟨ih1, ih2⟩ := ih bout d flag (k + 1)
        refine ⟨fun h => TermLast_append (bioAttempts_no_term _ _ _ _ _ _) (ih1 h),
          fun h => ?_⟩
        simp only [List.mem_append, not_or]
        exact ⟨bioAttempts_no_term _ _ _ _ _ _, ih2 h⟩
      · have hr : bioLoop bout d flag k ((i, f) :: rest) =
            ((bioAttempts (d i) (bout i) i f.username 0 MAX_RETRIES).1,
              .fatalExit, k + 1) := by
          simp [bioLoop, hf, he]
        rw [hr]
        exact ⟨fun h => by simp at h, fun _ => bioAttempts_no_term _ _ _ _ _ _⟩

/-- Phase 1 halts with the cooperative exit exactly when `terminated`
closes its trace. -/
theorem phase1_term (maxF : Option Nat) (followers0 : List Follower)
    (tui : Option String) (env : Env) (tuser : String) :
    ((phase1 maxF followers0 tui env tuser).2.2.2 = some .terminatedExit →
      TermLast (phase1 maxF followers0 tui env tuser).1) ∧
    ((phase1 maxF followers0 tui env tuser).2.2.2 ≠ some .terminatedExit →
      Event.terminated ∉ (phase1 maxF followers0 tui env tuser).1) := by
  by_cases hn : (tui.getD "") = ""
  · obtain ⟨res1, res2⟩ := resolveLoop_term MAX_RETRIES 0 env.lookup env.dLookup env.flag tuser 0
    rcases hres : (resolveLoop env.lookup env.dLookup env.flag tuser 0 0 MAX_RETRIES).2.1
      with uid | e
    · obtain ⟨pg1, pg2⟩ := pagLoop_term env.pages maxF env.dPag env.flag
        (resolveLoop env.lookup env.dLookup env.flag tuser 0 0 MAX_RETRIES).2.2 followers0
      have hres_no : Event.terminated ∉
          (resolveLoop env.lookup env.dLookup env.flag tuser 0 0 MAX_RETRIES).1 :=
        res2 (by simp [hres])
      rcases hpg : (pagLoop maxF env.dPag env.flag
          (resolveLoop env.lookup env.dLookup env.flag tuser 0 0 MAX_RETRIES).2.2
          followers0 env.pages).2.2.1 with _ | _ | e | _
      · constructor
        · intro h
          simp [phase1, hn, if_true, hres, hpg] at h
        · intro _
          have h2 := pg2 (by simp [hpg])
          simp only [phase1, hn, if_true, hres, hpg]
          simp [hres_no, h2]
      · constructor
        · intro h
          simp [phase1, hn, if_true, hres, hpg] at h
        · intro _
          have h2 := pg2 (by simp [hpg])
          simp only [phase1, hn, if_true, hres, hpg]
          simp [hres_no, h2]
      · constructor
        · intro h
          simp only [phase1, hn, if_true, hres, hpg] at h ⊢
          simp only [Option.some_inj] at h
          subst h
          exact TermLast_cons _ (by simp) (TermLast_append hres_no (pg1 (by simp [hpg])))
        · intro h
          simp only [phase1, hn, if_true, hres, hpg] at h ⊢
          have he : e ≠ ExitKind.terminatedExit := fun hh => h (by rw [hh])
          have h2 := pg2 (by simp [hpg, he])
          simp [hres_no, h2]
      · constructor
        · intro h
          simp [phase1, hn, if_true, hres, hpg] at h
        · intro _
          have h2 := pg2 (by simp [hpg])
          simp only [phase1, hn, if_true, hres, hpg]
          simp [hres_no, h2]
    · constructor
      · intro h
        simp only [phase1, hn, if_true, hres] at h ⊢
        simp only [Option.some_inj] at h
        subst h
        exact TermLast_cons _ (by simp) (res1 (by rw [hres]))
      · intro h
        simp only [phase1, hn, if_true, hres] at h ⊢
        have he : e ≠ ExitKind.terminatedExit := fun hh => h (by rw [hh])
        have h2 := res2 (by simp [hres, he])
        simp [h2]
  · obtain ⟨pg1, pg2⟩ := pagLoop_term env.pages maxF env.dPag env.flag 0 followers0
    rcases hpg : (pagLoop maxF env.dPag env.flag 0 followers0 env.pages).2.2.1
      with _ | _ | e | _
    · constructor
      · intro h
        simp [phase1, hn, if_false, hpg] at h
      · intro _
        have h2 := pg2 (by simp [hpg])
        simp only [phase1, hn, if_false, hpg]
        simp [h2]
    · constructor
      · intro h
        simp [phase1, hn, if_false, hpg] at h
      · intro _
        have h2 := pg2 (by simp [hpg])
        simp only [phase1, hn, if_false, hpg]
        simp [h2]
    · constructor
      · intro h
        simp only [phase1, hn, if_false, hpg] at h ⊢
        simp only [Option.some_inj] at h
        subst h
        exact TermLast_cons _ (by simp) (by simpa using pg1 (by simp [hpg]))
      · intro h
        simp only [phase1, hn, if_false, hpg] at h ⊢
        have he : e ≠ ExitKind.terminatedExit := fun hh => h (by rw [hh])
        have h2 := pg2 (by simp [hpg, he])
        simp [h2]
    · constructor
      · intro h
        simp [phase1, hn, if_false, hpg] at h
      · intro _
        have h2 := pg2 (by simp [hpg])
        simp only [phase1, hn, if_false, hpg]
        simp [h2]

/-- The run body ends with the cooperative exit exactly when
`terminated` closes its trace. -/
theorem runBody_term (pre : List Event) (maxF : Option Nat) (phaseName : String)
    (followers0 : List Follower) (startBio : Nat) (tui : Option String)
    (tuser : String) (env : Env) (hpre : Event.terminated ∉ pre) :
    ((runBody pre maxF phaseName followers0 startBio tui tuser env).2 = .terminatedExit →
      TermLast (runBody pre maxF phaseName followers0 startBio tui tuser env).1) ∧
    ((runBody pre maxF phaseName followers0 startBio tui tuser env).2 ≠ .terminatedExit →
      Event.terminated ∉ (runBody pre maxF phaseName followers0 startBio tui tuser env).1) := by
  rcases hv : env.validate with u | _ | m | m | m
  case expired =>
    constructor
    · intro h
      simp [runBody, hv] at h
    · intro _
      simp [runBody, hv, hpre]
  all_goals (
    by_cases hph : phaseName = "full"
    · obtain ⟨p1a, p1b⟩ := phase1_term maxF followers0 tui env tuser
      rcases hp1 : (phase1 maxF followers0 tui env tuser).2.2.2 with _ | e
      · obtain ⟨b1, b2⟩ := bioLoop_term
          (((phase1 maxF followers0 tui env tuser).2.1).enum.drop startBio)
          env.bio env.dBio env.flag (phase1 maxF followers0 tui env tuser).2.2.1
        have hp1no : Event.terminated ∉ (phase1 maxF followers0 tui env tuser).1 :=
          p1b (by simp [hp1])
        rcases hb : (bioLoop env.bio env.dBio env.flag
            (phase1 maxF followers0 tui env tuser).2.2.1
            (((phase1 maxF followers0 tui env tuser).2.1).enum.drop startBio)).2.1
          with _ | _ | _ | _ | _
        · constructor
          · intro h
            simp [runBody, hv, hph, phase2, hp1, hb] at h
          · intro _
            have hbno := b2 (by simp [hb])
            simp only [runBody, hv, hph, if_true, phase2, hp1, hb]
            simp [hpre, hp1no, hbno]
        · constructor
          · intro _
            simp only [runBody, hv, hph, if_true, phase2, hp1, hb]
            refine TermLast_append ?_ (TermLast_cons _ (by simp) (b1 (by rw [hb])))
            simp [hpre, hp1no]
          · intro h
            simp [runBody, hv, hph, phase2, hp1, hb] at h
        · constructor
          · intro h
            simp [runBody, hv, hph, phase2, hp1, hb] at h
          · intro _
            have hbno := b2 (by simp [hb])
            simp only [runBody, hv, hph, if_true, phase2, hp1, hb]
            simp [hpre, hp1no, hbno]
        · constructor
          · intro h
            simp [runBody, hv, hph, phase2, hp1, hb] at h
          · intro _
            have hbno := b2 (by simp [hb])
            simp only [runBody, hv, hph, if_true, phase2, hp1, hb]
            simp [hpre, hp1no, hbno]
        · constructor
          · intro h
            simp [runBody, hv, hph, phase2, hp1, hb] at h
          · intro _
            have hbno := b2 (by simp [hb])
            simp only [runBody, hv, hph, if_true, phase2, hp1, hb]
            simp [hpre, hp1no, hbno]
      · by_cases het : e = ExitKind.terminatedExit
        · subst het
          constructor
          · intro _
            simp only [runBody, hv, hph, if_true, hp1]
            exact TermLast_append hpre (p1a (by rw [hp1]))
          · intro h
            simp [runBody, hv, hph, hp1] at h
        · constructor
          · intro h
            simp only [runBody, hv, hph, if_true, hp1] at h
            exact absurd h het
          · intro _
            have hp1no : Event.terminated ∉ (phase1 maxF followers0 tui env tuser).1 :=
              p1b (by simp [hp1, het])
            simp only [runBody, hv, hph, if_true, hp1]
            simp [hpre, hp1no]
    · by_cases hph2 : phaseName = "bios"
      · obtain ⟨b1, b2⟩ := bioLoop_term (followers0.enum.drop startBio)
          env.bio env.dBio env.flag 0
        rcases hb : (bioLoop env.bio env.dBio env.flag 0
            (followers0.enum.drop startBio)).2.1 with _ | _ | _ | _ | _
        · constructor
          · intro h
            simp [runBody, hv, hph, hph2, phase2, hb] at h
          · intro _
            have hbno := b2 (by simp [hb])
            simp only [runBody, hv, hph, hph2, if_true, if_false, phase2, hb]
            simp [hpre, hbno]
        · constructor
          · intro _
            simp only [runBody, hv, hph, hph2, if_true, if_false, phase2, hb]
            exact TermLast_append hpre (TermLast_cons _ (by simp) (b1 (by rw [hb])))
          · intro h
            simp [runBody, hv, hph, hph2, phase2, hb] at h
        · constructor
          · intro h
            simp [runBody, hv, hph, hph2, phase2, hb] at h
          · intro _
            have hbno := b2 (by simp [hb])
            simp only [runBody, hv, hph, hph2, if_true, if_false, phase2, hb]
            simp [hpre, hbno]
        · constructor
          · intro h
            simp [runBody, hv, hph, hph2, phase2, hb] at h
          · intro _
            have hbno := b2 (by simp [hb])
            simp only [runBody, hv, hph, hph2, if_true, if_false, phase2, hb]
            simp [hpre, hbno]
        · constructor
          · intro h
            simp [runBody, hv, hph, hph2, phase2, hb] at h
          · intro _
            have hbno := b2 (by simp [hb])
            simp only [runBody, hv, hph, hph2, if_true, if_false, phase2, hb]
            simp [hpre, hbno]
      · constructor
        · intro h
          simp [runBody, hv, hph, hph2] at h
        · intro _
          simp [runBody, hv, hph, hph2, hpre])

/-- C7: whenever the cooperative cancellation flag is observed at a
checkpoint and a `terminated` event appears in the run's trace, that
event is the last event of the whole run — nothing of any kind is
emitted after it — and the process exits with status 0. -/
theorem claim_C7_theorem :
    ∀ (cfg : Config) (env : Env), Event.terminated ∈ (runMain cfg env).1 →
      (runMain cfg env).2 = .terminatedExit ∧
      exitCode (runMain cfg env).2 = 0 ∧
      TermLast (runMain cfg env).1 := by
  intro cfg env hmem
  rcases hs : cfg.sessionId with _ | sid
  · rw [show runMain cfg env = ([], .crash) from by simp [runMain, hs]] at hmem
    simp at hmem
  rcases ht : cfg.targetUsername with _ | tuser
  · rw [show runMain cfg env = ([], .crash) from by simp [runMain, hs, ht]] at hmem
    simp at hmem
  have hr : runMain cfg env =
      runBody (proxyInfoEvents cfg.proxy ++ validationEvents env.validate)
        cfg.maxFollowers cfg.phase cfg.followers cfg.startBioIndex
        cfg.targetUserId tuser env := by
    simp [runMain, hs, ht]
  obtain ⟨rb1, rb2⟩ := runBody_term
    (proxyInfoEvents cfg.proxy ++ validationEvents env.validate)
    cfg.maxFollowers cfg.phase cfg.followers cfg.startBioIndex
    cfg.targetUserId tuser env (preEvents_no_term cfg.proxy env.validate)
  rw [hr] at hmem ⊢
  by_cases he : (runBody (proxyInfoEvents cfg.proxy ++ validationEvents env.validate)
      cfg.maxFollowers cfg.phase cfg.followers cfg.startBioIndex
      cfg.targetUserId tuser env).2 = .terminatedExit
  · exact ⟨he, by rw [he]; rfl, rb1 he⟩
  · exact absurd hmem (rb2 he)

/-- C7 witness: a full run whose cancellation flag is observed at the
checkpoint between page 1 and page 2 ends in `terminated` as its last
event and exits 0. -/
theorem claim_C7_witness :
    (runMain ⟨some "sid", some "tgt", none, "full", none, [], 0, some "99", "", "", none⟩
        ⟨fun k => decide (1 ≤ k), .ok "me", fun _ => .rl,
          [.ok [⟨"1", "u", ""⟩] (some "A"), .ok [⟨"2", "v", ""⟩] none],
          fun _ _ => .rl, fun _ => 0, fun _ => 0, fun _ _ => 0⟩).2 = .terminatedExit ∧
    exitCode (runMain ⟨some "sid", some "tgt", none, "full", none, [], 0, some "99", "", "", none⟩
        ⟨fun k => decide (1 ≤ k), .ok "me", fun _ => .rl,
          [.ok [⟨"1", "u", ""⟩] (some "A"), .ok [⟨"2", "v", ""⟩] none],
          fun _ _ => .rl, fun _ => 0, fun _ => 0, fun _ _ => 0⟩).2 = 0 ∧
    TermLast (runMain ⟨some "sid", some "tgt", none, "full", none, [], 0, some "99", "", "", none⟩
        ⟨fun k => decide (1 ≤ k), .ok "me", fun _ => .rl,
          [.ok [⟨"1", "u", ""⟩] (some "A"), .ok [⟨"2", "v", ""⟩] none],
          fun _ _ => .rl, fun _ => 0, fun _ => 0, fun _ _ => 0⟩).1 :=
  claim_C7_theorem
    ⟨some "sid", some "tgt", none, "full", none, [], 0, some "99", "", "", none⟩
    ⟨fun k => decide (1 ≤ k), .ok "me", fun _ => .rl,
      [.ok [⟨"1", "u", ""⟩] (some "A"), .ok [⟨"2", "v", ""⟩] none],
      fun _ _ => .rl, fun _ => 0, fun _ => 0, fun _ _ => 0⟩ (by decide)

/-- Unfolding a run of consecutive rate-limit events. -/
theorem rlEvents_succ (c : String) (d : Nat → Nat) (a j : Nat) :
    rlEvents c d a (j + 1) =
      .rateLimitedEv c (d a) (some (a + 1)) :: rlEvents c d (a + 1) j := by
  unfold rlEvents
  rw [List.range_succ_eq_map, List.map_cons, List.map_map]
  refine congrArg₂ List.cons (by simp) ?_
  refine List.map_congr_left ?_
  intro l _
  simp only [Function.comp_apply, Nat.succ_eq_add_one]
  have h1 : a + (l + 1) = a + 1 + l := by omega
  rw [h1]

/-- Unfolding a run of consecutive pagination rate-limit events. -/
theorem rlEventsPag_succ (d : Nat → Nat) (k j : Nat) :
    rlEventsPag d k (j + 1) =
      .rateLimitedEv "followers" (d k) none :: rlEventsPag d (k + 1) j := by
  unfold rlEventsPag
  rw [List.range_succ_eq_map, List.map_cons, List.map_map]
  refine congrArg₂ List.cons (by simp) ?_
  refine List.map_congr_left ?_
  intro l _
  simp only [Function.comp_apply, Nat.succ_eq_add_one]
  have h1 : k + (l + 1) = k + 1 + l := by omega
  rw [h1]

/-- User resolution: `j` rate-limited attempts followed by a
session-expiry outcome at attempt `a + j` produce exactly the
rate-limit events and one fatal event, halt with the fatal exit, and
consult no further attempt. -/
theorem resolveLoop_rl_expired :
    ∀ (j a fuel : Nat) (out : Nat → CallRes) (d : Nat → Nat) (t : String)
      (k : Nat) (m : String),
      j < fuel → (∀ l, l < j → out (a + l) = .rl) → out (a + j) = .expired m →
      resolveLoop out d (fun _ => false) t k a fuel =
        (rlEvents "user_lookup" d a j ++
          [Event.fatal ("Session expired during user lookup: " ++ m)],
          .halt .fatalExit, k + j + 1) := by
  intro j
  induction j with
  | zero =>
    intro a fuel out d t k m hj hpre hexp
    obtain ⟨fuel', rfl⟩ : ∃ f, fuel = f + 1 := ⟨fuel - 1, by omega⟩
    have h0 : out a = .expired m := by simpa using hexp
    simp [resolveLoop, h0, rlEvents]
  | succ j ih =>
    intro a fuel out d t k m hj hpre hexp
    obtain ⟨fuel', rfl⟩ : ∃ f, fuel = f + 1 := ⟨fuel - 1, by omega⟩
    have h0 : out a = .rl := by simpa using hpre 0 (Nat.succ_pos j)
    have ihr := ih (a + 1) fuel' out d t (k + 1) m (by omega)
      (fun l hl => by
        have h := hpre (l + 1) (by omega)
        rw [show a + 1 + l = a + (l + 1) from by omega]
        exact h)
      (by
        rw [show a + 1 + j = a + (j + 1) from by omega]
        exact hexp)
    have hstep : resolveLoop out d (fun _ => false) t k a (fuel' + 1) =
        (.rateLimitedEv "user_lookup" (d a) (some (a + 1)) ::
            (resolveLoop out d (fun _ => false) t (k + 1) (a + 1) fuel').1,
          (resolveLoop out d (fun _ => false) t (k + 1) (a + 1) fuel').2) := by
      simp [resolveLoop, h0]
    rw [hstep, ihr, rlEvents_succ,
      show k + 1 + j + 1 = k + (j + 1) + 1 from by omega]
    rfl

/-- Pagination: `j` rate-limited iterations followed by a
session-expiry outcome produce exactly the rate-limit events and one
fatal event, halt with the fatal exit, leave the follower list
untouched, and never look at the remaining steps. -/
theorem pagLoop_rl_expired :
    ∀ (j : Nat) (maxF : Option Nat) (d : Nat → Nat) (k : Nat)
      (acc : List Follower) (m : String) (rest : List PagStep),
      pagLoop maxF d (fun _ => false) k acc
          (List.replicate j .rl ++ .expired m :: rest) =
        (rlEventsPag d k j ++
          [Event.fatal ("Session expired: " ++ m ++ ". Update your Instagram cookies and resume.")],
          acc, .halt .fatalExit, k + j + 1) := by
  intro j
  induction j with
  | zero =>
    intro maxF d k acc m rest
    simp [pagLoop, rlEventsPag]
  | succ j ih =>
    intro maxF d k acc m rest
    have hstep : pagLoop maxF d (fun _ => false) k acc
        (.rl :: (List.replicate j .rl ++ .expired m :: rest)) =
        (.rateLimitedEv "followers" (d k) none ::
            (pagLoop maxF d (fun _ => false) (k + 1) acc
              (List.replicate j .rl ++ .expired m :: rest)).1,
          (pagLoop maxF d (fun _ => false) (k + 1) acc
            (List.replicate j .rl ++ .expired m :: rest)).2) := by
      simp [pagLoop]
    rw [List.replicate_succ, List.cons_append, hstep, ih, rlEventsPag_succ,
      show k + 1 + j + 1 = k + (j + 1) + 1 from by omega]
    rfl

/-- Bio fetch: `j` rate-limited attempts followed by a session-expiry
outcome at attempt `attempt + j` produce exactly the rate-limit
events (in the follower's context) and one fatal event, and stop the
whole run. -/
theorem bioAttempts_rl_expired :
    ∀ (j attempt fuel : Nat) (d : Nat → Nat) (out : Nat → BioCall)
      (i : Nat) (u : String) (m : String),
      j < fuel → (∀ l, l < j → out (attempt + l) = .rl) →
      out (attempt + j) = .expired m →
      bioAttempts d out i u attempt fuel =
        (rlEvents ("bio @" ++ u) d attempt j ++
          [Event.fatal ("Session expired: " ++ m ++ ". Update your Instagram cookies and resume.")],
          .fatalStop) := by
  intro j
  induction j with
  | zero =>
    intro attempt fuel d out i u m hj hpre hexp
    obtain ⟨fuel', rfl⟩ : ∃ f, fuel = f + 1 := ⟨fuel - 1, by omega⟩
    have h0 : out attempt = .expired m := by simpa using hexp
    simp [bioAttempts, h0, rlEvents]
  | succ j ih =>
    intro attempt fuel d out i u m hj hpre hexp
    obtain ⟨fuel', rfl⟩ : ∃ f, fuel = f + 1 := ⟨fuel - 1, by omega⟩
    have h0 : out attempt = .rl := by simpa using hpre 0 (Nat.succ_pos j)
    have ihr := ih (attempt + 1) fuel' d out i u m (by omega)
      (fun l hl => by
        have h := hpre (l + 1) (by omega)
        rw [show attempt + 1 + l = attempt + (l + 1) from by omega]
        exact h)
      (by
        rw [show attempt + 1 + j = attempt + (j + 1) from by omega]
        exact hexp)
    have hstep : bioAttempts d out i u attempt (fuel' + 1) =
        (.rateLimitedEv ("bio @" ++ u) (d attempt) (some (attempt + 1)) ::
            (bioAttempts d out i u (attempt + 1) fuel').1,
          (bioAttempts d out i u (attempt + 1) fuel').2) := by
      simp [bioAttempts, h0]
    rw [hstep, ihr, rlEvents_succ]
    rfl

/-- C5: a `SessionExpired` outcome is never retried at any of the
three call sites. After `j` rate-limited attempts, an expiry at the
next attempt makes target resolution, pagination and bio fetching emit
the accumulated rate-limit events followed immediately by one fatal
event and halt with the fatal exit — pagination does not even look at
the remaining steps — and the fatal exit carries process status 1. -/
theorem claim_C5_theorem :
    (∀ (out : Nat → CallRes) (d : Nat → Nat) (t : String) (k j fuel : Nat) (m : String),
      j < fuel → (∀ l, l < j → out l = .rl) → out j = .expired m →
      resolveLoop out d (fun _ => false) t k 0 fuel =
        (rlEvents "user_lookup" d 0 j ++
          [Event.fatal ("Session expired during user lookup: " ++ m)],
          .halt .fatalExit, k + j + 1)) ∧
    (∀ (j : Nat) (maxF : Option Nat) (d : Nat → Nat) (k : Nat)
       (acc : List Follower) (m : String) (rest : List PagStep),
      pagLoop maxF d (fun _ => false) k acc
          (List.replicate j .rl ++ .expired m :: rest) =
        (rlEventsPag d k j ++
          [Event.fatal ("Session expired: " ++ m ++ ". Update your Instagram cookies and resume.")],
          acc, .halt .fatalExit, k + j + 1)) ∧
    (∀ (j : Nat) (d : Nat → Nat) (out : Nat → BioCall) (i : Nat) (u m : String),
      j < MAX_RETRIES → (∀ l, l < j → out l = .rl) → out j = .expired m →
      bioAttempts d out i u 0 MAX_RETRIES =
        (rlEvents ("bio @" ++ u) d 0 j ++
          [Event.fatal ("Session expired: " ++ m ++ ". Update your Instagram cookies and resume.")],
          .fatalStop)) ∧
    exitCode .fatalExit = 1 := by
  refine ⟨fun out d t k j fuel m hj hpre hexp => ?_,
    fun j maxF d k acc m rest => pagLoop_rl_expired j maxF d k acc m rest,
    fun j d out i u m hj hpre hexp => ?_, rfl⟩
  · exact resolveLoop_rl_expired j 0 fuel out d t k m hj
      (fun l hl => by simpa using hpre l hl) (by simpa using hexp)
  · exact bioAttempts_rl_expired j 0 MAX_RETRIES d out i u m hj
      (fun l hl => by simpa using hpre l hl) (by simpa using hexp)

/-- C5 witness: one rate-limited attempt followed by a session expiry
at each of the three call sites, evaluated concretely. -/
theorem claim_C5_witness :
    resolveLoop (fun l => if l = 0 then .rl else .expired "boom") (fun _ => 7)
        (fun _ => false) "tgt" 0 0 5 =
      (rlEvents "user_lookup" (fun _ => 7) 0 1 ++
        [Event.fatal ("Session expired during user lookup: " ++ "boom")],
        .halt .fatalExit, 0 + 1 + 1) ∧
    pagLoop none (fun _ => 7) (fun _ => false) 0 []
        (List.replicate 1 .rl ++ .expired "boom" :: [PagStep.rl]) =
      (rlEventsPag (fun _ => 7) 0 1 ++
        [Event.fatal ("Session expired: " ++ "boom" ++ ". Update your Instagram cookies and resume.")],
        [], .halt .fatalExit, 0 + 1 + 1) ∧
    bioAttempts (fun _ => 7) (fun l => if l = 0 then BioCall.rl else .expired "boom")
        3 "alice" 0 MAX_RETRIES =
      (rlEvents ("bio @" ++ "alice") (fun _ => 7) 0 1 ++
        [Event.fatal ("Session expired: " ++ "boom" ++ ". Update your Instagram cookies and resume.")],
        .fatalStop) :=
  ⟨claim_C5_theorem.1 (fun l => if l = 0 then .rl else .expired "boom") (fun _ => 7)
      "tgt" 0 1 5 "boom" (by decide)
      (fun l hl => by
        have h : l = 0 := Nat.lt_one_iff.mp hl
        subst h
        rfl)
      rfl,
    claim_C5_theorem.2.1 1 none (fun _ => 7) 0 [] "boom" [PagStep.rl],
    claim_C5_theorem.2.2.1 1 (fun _ => 7)
      (fun l => if l = 0 then BioCall.rl else .expired "boom") 3 "alice" "boom"
      (by decide)
      (fun l hl => by
        have h : l = 0 := Nat.lt_one_iff.mp hl
        subst h
        rfl)
      rfl⟩

end IgScraper
